import Mathlib

/-!
Verification of the Link Hub storage layer (categories/links CRUD over
pluggable adapters). Each adapter and the service selector are shallowly
embedded as pure Lean functions over explicit store states, following the
TypeScript sources in `src/lib/` (local-data-service.ts, data-service.ts,
mongo-data-service.ts, postgres-data-service.ts, firebase-data-service.ts)
and the legacy selector revision (`initializeDataService`).
-/

namespace LinkHub

/-- Embeds `Category` record from `src/types/index.ts`: `id`, required `name`,
optional `description` and `icon`. -/
structure Category where
  id : String
  name : String
  description : Option String
  icon : Option String
deriving Repr, DecidableEq

/-- Embeds `LinkItem` record from `src/types/index.ts`: `id`, required `title` and
`url`, optional `description`, required `categoryId`, optional `icon`. -/
structure LinkItem where
  id : String
  title : String
  url : String
  description : Option String
  categoryId : String
  icon : Option String
deriving Repr, DecidableEq

/-- Payload for `addCategory` (`Omit<Category, "id">`). -/
structure CategoryData where
  name : String
  description : Option String
  icon : Option String
deriving Repr, DecidableEq

/-- Payload for `addLink` (`Omit<LinkItem, "id">`). -/
structure LinkData where
  title : String
  url : String
  description : Option String
  categoryId : String
  icon : Option String
deriving Repr, DecidableEq

/-- Attach a generated id to a category payload (`{ ...categoryData, id }`). -/
def mkCategory (d : CategoryData) (id : String) : Category :=
  { id := id, name := d.name, description := d.description, icon := d.icon }

/-- Attach a generated id to a link payload (`{ ...linkData, id }`). -/
def mkLink (d : LinkData) (id : String) : LinkItem :=
  { id := id, title := d.title, url := d.url, description := d.description,
    categoryId := d.categoryId, icon := d.icon }


/-! ## Local adapter (`src/lib/local-data-service.ts`)

The browser-local store is two `localStorage` slots holding JSON arrays of
categories and links; an absent slot reads as the default seed data
(`getLocalStorageItem(key, default)`). We model a browser context where
`window` is defined, so `setLocalStorageItem` really writes. -/

/-- The 4 fixed default categories (`initialCategories`). -/
def initialCategories : List Category :=
  [ { id := "1", name := "General", description := some "Useful general links", icon := some "Globe" },
    { id := "2", name := "Work", description := some "Work-related tools and resources", icon := some "Briefcase" },
    { id := "3", name := "Development", description := some "Coding and development links", icon := some "Code" },
    { id := "4", name := "Learning", description := some "Educational resources", icon := some "BookOpen" } ]

/-- The 5 fixed default links (`initialLinks`). -/
def initialLinks : List LinkItem :=
  [ { id := "1", title := "Google", url := "https://google.com", description := some "Search engine", categoryId := "1", icon := some "Zap" },
    { id := "2", title := "Next.js Docs", url := "https://nextjs.org/docs", description := some "The React Framework for Production", categoryId := "3", icon := some "FileText" },
    { id := "3", title := "Tailwind CSS", url := "https://tailwindcss.com", description := some "A utility-first CSS framework", categoryId := "3", icon := some "Palette" },
    { id := "4", title := "GitHub", url := "https://github.com", description := some "Code hosting platform", categoryId := "2", icon := some "Github" },
    { id := "5", title := "MDN Web Docs", url := "https://developer.mozilla.org", description := some "Resources for developers, by developers", categoryId := "4", icon := some "BookOpen" } ]

/-- State of the browser-local store: the two `localStorage` slots
(`linkhub_categories`, `linkhub_links`); `none` models an absent key. -/
structure LocalStore where
  categoriesSlot : Option (List Category)
  linksSlot : Option (List LinkItem)
deriving Repr, DecidableEq

/-- Embeds `getLocalStorageItem(CATEGORIES_KEY, initialCategories)` as read by
`LocalDataService.getCategories`. -/
def getCategoriesL (s : LocalStore) : List Category :=
  s.categoriesSlot.getD initialCategories

/-- Embeds `getLocalStorageItem(LINKS_KEY, initialLinks)` as read by
`LocalDataService.getLinks`. -/
def getLinksL (s : LocalStore) : List LinkItem :=
  s.linksSlot.getD initialLinks

/-- Embeds `LocalDataService.getCategory`: `categories.find(cat => cat.id === id)`. -/
def getCategoryL (s : LocalStore) (id : String) : Option Category :=
  (getCategoriesL s).find? (fun cat => cat.id == id)

/-- Embeds `LocalDataService.getLink`: `links.find(link => link.id === id)`. -/
def getLinkL (s : LocalStore) (id : String) : Option LinkItem :=
  (getLinksL s).find? (fun link => link.id == id)

/-- Embeds `LocalDataService.getLinksByCategoryId`:
`links.filter(link => link.categoryId === categoryId)`. -/
def getLinksByCategoryIdL (s : LocalStore) (categoryId : String) : List LinkItem :=
  (getLinksL s).filter (fun link => link.categoryId == categoryId)

/-- Embeds `LocalDataService.addCategory`; `clock` is the value of
`Date.now().toString()` at the call. -/
def addCategoryL (s : LocalStore) (d : CategoryData) (clock : String) :
    Category × LocalStore :=
  let categories := getCategoriesL s
  let newCategory := mkCategory d clock
  (newCategory, { s with categoriesSlot := some (categories ++ [newCategory]) })

/-- Embeds `LocalDataService.addLink`; `clock` is `Date.now().toString()`. -/
def addLinkL (s : LocalStore) (d : LinkData) (clock : String) :
    LinkItem × LocalStore :=
  let links := getLinksL s
  let newLink := mkLink d clock
  (newLink, { s with linksSlot := some (links ++ [newLink]) })

/-- JS `findIndex` + in-place assignment of the first element matching `p`,
leaving the list unchanged when none matches. -/
def setFirstMatch {α : Type} (p : α → Bool) (u : α) : List α → List α
  | [] => []
  | a :: as => if p a then u :: as else a :: setFirstMatch p u as

/-- Embeds `LocalDataService.updateCategory`: `findIndex` on `cat.id`, assign at the
found index and persist, else return `null`. -/
def updateCategoryL (s : LocalStore) (u : Category) : Option Category × LocalStore :=
  let categories := getCategoriesL s
  if categories.any (fun cat => cat.id == u.id) then
    (some u, { s with categoriesSlot := some (setFirstMatch (fun cat => cat.id == u.id) u categories) })
  else
    (none, s)

/-- Embeds `LocalDataService.updateLink`: symmetric to `updateCategoryL`. -/
def updateLinkL (s : LocalStore) (u : LinkItem) : Option LinkItem × LocalStore :=
  let links := getLinksL s
  if links.any (fun link => link.id == u.id) then
    (some u, { s with linksSlot := some (setFirstMatch (fun link => link.id == u.id) u links) })
  else
    (none, s)

/-- Embeds `LocalDataService.deleteCategory`: filter the category out, always rewrite
the links slot without the links of `id`, and rewrite the categories slot
(returning `true`) only when the category list shrank. -/
def deleteCategoryL (s : LocalStore) (id : String) : Bool × LocalStore :=
  let categories := getCategoriesL s
  let categories2 := categories.filter (fun cat => cat.id != id)
  let links2 := (getLinksL s).filter (fun link => link.categoryId != id)
  let s1 : LocalStore := { s with linksSlot := some links2 }
  if categories2.length < categories.length then
    (true, { s1 with categoriesSlot := some categories2 })
  else
    (false, s1)

/-- Embeds `LocalDataService.deleteLink`: filter out the link, persist (returning
`true`) only when the list shrank. -/
def deleteLinkL (s : LocalStore) (id : String) : Bool × LocalStore :=
  let links := getLinksL s
  let links2 := links.filter (fun link => link.id != id)
  if links2.length < links.length then
    (true, { s with linksSlot := some links2 })
  else
    (false, s)

/-- Module-load seeding in `local-data-service.ts`: each absent slot is
initialized with the default data; a present slot is left alone. -/
def seedL (s : LocalStore) : LocalStore :=
  { categoriesSlot := match s.categoriesSlot with
      | none => some initialCategories
      | some v => some v,
    linksSlot := match s.linksSlot with
      | none => some initialLinks
      | some v => some v }

/-- The empty local store: both persisted slots absent. -/
def emptyLocalStore : LocalStore := { categoriesSlot := none, linksSlot := none }

/-- One CRUD mutation of the local adapter; the add operations carry the
`Date.now().toString()` value observed at the call. -/
inductive LocalOp where
  | addCat (d : CategoryData) (clock : String)
  | updateCat (u : Category)
  | deleteCat (id : String)
  | addLnk (d : LinkData) (clock : String)
  | updateLnk (u : LinkItem)
  | deleteLnk (id : String)
deriving Repr, DecidableEq

/-- Apply one mutation to the local store. -/
def applyOp (s : LocalStore) : LocalOp → LocalStore
  | .addCat d clock => (addCategoryL s d clock).2
  | .updateCat u => (updateCategoryL s u).2
  | .deleteCat id => (deleteCategoryL s id).2
  | .addLnk d clock => (addLinkL s d clock).2
  | .updateLnk u => (updateLinkL s u).2
  | .deleteLnk id => (deleteLinkL s id).2

/-- Id-uniqueness invariant: no two categories share an id and no two links
share an id. -/
def UniqueIds (s : LocalStore) : Prop :=
  ((getCategoriesL s).map Category.id).Nodup ∧ ((getLinksL s).map LinkItem.id).Nodup

instance (s : LocalStore) : Decidable (UniqueIds s) :=
  inferInstanceAs (Decidable (_ ∧ _))

/-- Whether the clock value carried by an add operation is fresh, that is,
whether `Date.now().toString()` collided with an existing id. The code does
not check this. -/
def opFresh (s : LocalStore) : LocalOp → Bool
  | .addCat _ clock => (getCategoriesL s).all (fun cat => cat.id != clock)
  | .addLnk _ clock => (getLinksL s).all (fun link => link.id != clock)
  | _ => true

/-! ## Service selector (`src/lib/data-service.ts` and the legacy
`initializeDataService` revision of the same module) -/

/-- The adapters the selector can produce. -/
inductive AdapterKind where
  | localAdapter
  | postgresAdapter
  | mongoAdapter
deriving Repr, DecidableEq

/-- Classification of the errors thrown by the selector, following the
spec's taxonomy (§7). -/
inductive SelectorError where
  | policyViolation
  | configurationError
deriving Repr, DecidableEq

/-- JS truthiness of an environment value: set and non-empty. -/
def truthy : Option String → Bool
  | none => false
  | some s => s != ""

/-- Embeds `const dataSourceType = process.env.NEXT_PUBLIC_DATA_SOURCE_TYPE || 'local'`. -/
def effectiveDataSourceType (cfg : Option String) : String :=
  match cfg with
  | none => "local"
  | some s => if s = "" then "local" else s

/-- PostgreSQL-related environment variables. -/
structure PgEnv where
  connectionString : Option String
  host : Option String
  port : Option String
  user : Option String
  password : Option String
  db : Option String
deriving Repr, DecidableEq

/-- Server-process environment, as consumed by the selector. -/
structure ServerEnv where
  pg : PgEnv
  mongoUri : Option String
  mongoDbName : Option String
deriving Repr, DecidableEq

/-- The postgres configuration check in `getServiceInstance`: the full
discrete parameter set, or a connection string. -/
def hasFullPostgresConfig (e : ServerEnv) : Bool :=
  (truthy e.pg.host && truthy e.pg.port && truthy e.pg.user &&
   truthy e.pg.password && truthy e.pg.db) || truthy e.pg.connectionString

/-- The mongodb configuration check: `MONGODB_URI && MONGODB_DB_NAME`. -/
def hasFullMongoConfig (e : ServerEnv) : Bool :=
  truthy e.mongoUri && truthy e.mongoDbName

/-- Client-side branch of `getServiceInstance` (data-service.ts): in a
browser context a `local` (or unset/empty) data source kind yields the local
adapter; any other kind throws ("Client-side direct data access for
non-local data source type ... is prohibited"), classified here as
PolicyViolation. -/
def getServiceInstanceClient (cfg : Option String) : Except SelectorError AdapterKind :=
  let dst := effectiveDataSourceType cfg
  if dst = "local" || dst = "" then
    .ok .localAdapter
  else
    .error .policyViolation

/-- Server-side branch of `getServiceInstance` (data-service.ts): for the
`postgres` and `mongodb` kinds the configuration is checked first and a
missing configuration throws (ConfigurationError) before the adapter module
is even imported, so before any query; any other kind yields the
server-local adapter. -/
def getServiceInstanceServer (cfg : Option String) (e : ServerEnv) :
    Except SelectorError AdapterKind :=
  let dst := effectiveDataSourceType cfg
  if dst = "postgres" then
    if !hasFullPostgresConfig e then .error .configurationError
    else .ok .postgresAdapter
  else if dst = "mongodb" then
    if !hasFullMongoConfig e then .error .configurationError
    else .ok .mongoAdapter
  else
    .ok .localAdapter

/-- Legacy selector `initializeDataService` (earlier revision of the
data-service module): on missing postgres/mongodb configuration it logs a
warning and returns the local adapter instead of throwing. -/
def initializeDataService (cfg : Option String) (e : ServerEnv) : AdapterKind :=
  let dst := effectiveDataSourceType cfg
  if dst = "postgres" then
    if hasFullPostgresConfig e then .postgresAdapter else .localAdapter
  else if dst = "mongodb" then
    if hasFullMongoConfig e then .mongoAdapter else .localAdapter
  else
    .localAdapter

/-- A server environment with no connection configuration set. -/
def emptyServerEnv : ServerEnv :=
  { pg := { connectionString := none, host := none, port := none,
            user := none, password := none, db := none },
    mongoUri := none, mongoDbName := none }

/-! ## Firestore adapter (`src/lib/firebase-data-service.ts`)

Modelled with an initialized Firestore handle (`db` non-null — the
constructor throws otherwise) and documents as id-keyed records in two
collections. -/

/-- Firestore contents: the `categories` and `links` collections. -/
structure FireStore where
  categories : List Category
  links : List LinkItem
deriving Repr, DecidableEq

/-- Embeds `FirebaseDataService.deleteCategory`: a write batch blindly deletes the
category document with the given id and every link document whose
`categoryId` matches, commits, and returns `true` unconditionally — it never
checks whether a category document existed. -/
def deleteCategoryFB (s : FireStore) (id : String) : Bool × FireStore :=
  (true,
   { categories := s.categories.filter (fun cat => cat.id != id),
     links := s.links.filter (fun link => link.categoryId != id) })

/-- Embeds `FirebaseDataService.getCategory`: `getDoc` by document id,
present documents map to `{ id, ...data }`. -/
def getCategoryFB (s : FireStore) (id : String) : Option Category :=
  s.categories.find? (fun cat => cat.id == id)

/-- Embeds `FirebaseDataService.addCategory`: `addDoc` stores the payload
under a fresh store-native document id `docId` and the method returns
`{ id: docRef.id, ...categoryData }`. -/
def addCategoryFB (s : FireStore) (d : CategoryData) (docId : String) :
    Category × FireStore :=
  let newDoc := mkCategory d docId
  (newDoc, { s with categories := s.categories ++ [newDoc] })

/-! ## Relational adapter (`src/lib/postgres-data-service.ts`)

Modelled with the two tables as row lists; parameterized statements become
list operations; `deleteCategory` is the BEGIN/COMMIT transaction deleting
links by `categoryId` then the category by `id`. -/

/-- Rows of the `categories` and `links` tables. -/
structure PgStore where
  categories : List Category
  links : List LinkItem
deriving Repr, DecidableEq

/-- JS `x || null` as applied to optional column values before INSERT/UPDATE:
an absent or empty string becomes SQL NULL. -/
def pgCoerce : Option String → Option String
  | none => none
  | some s => if s = "" then none else some s

/-- Embeds `PostgresDataService.getCategory`: `SELECT ... WHERE id = $1`,
then `categories[0]`. -/
def getCategoryP (s : PgStore) (id : String) : Option Category :=
  (s.categories.find? (fun cat => cat.id == id))

/-- Embeds `PostgresDataService.getLinks`: `SELECT ... FROM links`. -/
def getLinksP (s : PgStore) : List LinkItem :=
  s.links

/-- Embeds `PostgresDataService.getLinksByCategoryId`:
`SELECT ... WHERE "categoryId" = $1`. -/
def getLinksByCategoryIdP (s : PgStore) (categoryId : String) : List LinkItem :=
  s.links.filter (fun link => link.categoryId == categoryId)

/-- Embeds `PostgresDataService.addCategory`: `uuid` is the
`crypto.randomUUID()` value; the INSERT stores `description || null` and
`icon || null` and RETURNING hands back the stored row. -/
def addCategoryP (s : PgStore) (d : CategoryData) (uuid : String) :
    Category × PgStore :=
  let newRow : Category :=
    { id := uuid, name := d.name, description := pgCoerce d.description,
      icon := pgCoerce d.icon }
  (newRow, { s with categories := s.categories ++ [newRow] })

/-- Embeds `PostgresDataService.deleteCategory`: inside one transaction,
`DELETE FROM links WHERE "categoryId" = $1` then
`DELETE FROM categories WHERE id = $1`; the result is `rowCount > 0` of the
category delete. -/
def deleteCategoryP (s : PgStore) (id : String) : Bool × PgStore :=
  (s.categories.any (fun cat => cat.id == id),
   { categories := s.categories.filter (fun cat => cat.id != id),
     links := s.links.filter (fun link => link.categoryId != id) })

/-! ## MongoDB adapter (`src/lib/mongo-data-service.ts`) -/

/-- Connection state of `MongoDataService`: `connected` is
`this.db !== null`; `reachable` says whether `client.connect()` would
succeed when attempted. -/
structure MongoConn where
  connected : Bool
  reachable : Bool
deriving Repr, DecidableEq

/-- MongoDB contents: the `categories` and `links` collections, with the
native `_id` rendered as the public hex `id` string. -/
structure MongoStore where
  categories : List Category
  links : List LinkItem
deriving Repr, DecidableEq

/-- Errors surfaced by the MongoDB adapter in this model. -/
inductive MongoErr where
  | connectionError
deriving Repr, DecidableEq

/-- Embeds `if (!this.db) await this.connect();` — every data method runs this
before anything else; it throws when the client cannot connect. -/
def ensureConnected (c : MongoConn) : Except MongoErr Unit :=
  if c.connected then .ok ()
  else if c.reachable then .ok ()
  else .error .connectionError

/-- Embeds `ObjectId.isValid` on a string: a 12-character string (taken as 12 raw
bytes) or a 24-character hexadecimal string. -/
def isValidObjectId (s : String) : Bool :=
  s.length == 12 ||
    (s.length == 24 &&
      s.toList.all (fun ch => ch.isDigit || ('a' ≤ ch && ch ≤ 'f') || ('A' ≤ ch && ch ≤ 'F')))

/-- Embeds `deleteOne` on an id filter: remove the first document matching `p`. -/
def removeFirst {α : Type} (p : α → Bool) : List α → List α
  | [] => []
  | a :: as => if p a then as else a :: removeFirst p as

/-- Embeds `MongoDataService.getCategory`: ensure connection, return `undefined` for
a syntactically invalid ObjectId, else `findOne` by `_id`. -/
def getCategoryM (c : MongoConn) (s : MongoStore) (id : String) :
    Except MongoErr (Option Category) := do
  let _ ← ensureConnected c
  if !isValidObjectId id then return none
  return s.categories.find? (fun cat => cat.id == id)

/-- Embeds `MongoDataService.getLink`: symmetric to `getCategoryM`. -/
def getLinkM (c : MongoConn) (s : MongoStore) (id : String) :
    Except MongoErr (Option LinkItem) := do
  let _ ← ensureConnected c
  if !isValidObjectId id then return none
  return s.links.find? (fun link => link.id == id)

/-- Embeds `MongoDataService.updateCategory`: an invalid id returns `null`; else
`updateOne({_id}, {$set: data})`, returning the record iff
`modifiedCount > 0` (Mongo counts a document as modified only when the
update actually changed it). -/
def updateCategoryM (c : MongoConn) (s : MongoStore) (u : Category) :
    Except MongoErr (Option Category × MongoStore) := do
  let _ ← ensureConnected c
  if !isValidObjectId u.id then return (none, s)
  match s.categories.find? (fun cat => cat.id == u.id) with
  | none => return (none, s)
  | some old =>
    let s' : MongoStore :=
      { s with categories := setFirstMatch (fun cat => cat.id == u.id) u s.categories }
    if old = u then return (none, s') else return (some u, s')

/-- Embeds `MongoDataService.updateLink`: symmetric to `updateCategoryM`. -/
def updateLinkM (c : MongoConn) (s : MongoStore) (u : LinkItem) :
    Except MongoErr (Option LinkItem × MongoStore) := do
  let _ ← ensureConnected c
  if !isValidObjectId u.id then return (none, s)
  match s.links.find? (fun link => link.id == u.id) with
  | none => return (none, s)
  | some old =>
    let s' : MongoStore :=
      { s with links := setFirstMatch (fun link => link.id == u.id) u s.links }
    if old = u then return (none, s') else return (some u, s')

/-- Embeds `MongoDataService.deleteCategory`: an invalid id returns `false`; with a
session the link-delete and category-delete run inside a transaction and the
method returns `true` whenever the transaction commits, regardless of
`deletedCount`; without a session the two deletes run sequentially and the
result is `deletedCount > 0` of the category `deleteOne`. -/
def deleteCategoryM (c : MongoConn) (hasSession : Bool) (s : MongoStore) (id : String) :
    Except MongoErr (Bool × MongoStore) := do
  let _ ← ensureConnected c
  if !isValidObjectId id then return (false, s)
  let links2 := s.links.filter (fun link => link.categoryId != id)
  let found := s.categories.any (fun cat => cat.id == id)
  let cats2 := removeFirst (fun cat => cat.id == id) s.categories
  if hasSession then
    return (true, { categories := cats2, links := links2 })
  else
    return (found, { categories := cats2, links := links2 })

/-- Embeds `MongoDataService.deleteLink`: an invalid id returns `false`; else
`deleteOne` by `_id`, returning `deletedCount > 0`. -/
def deleteLinkM (c : MongoConn) (s : MongoStore) (id : String) :
    Except MongoErr (Bool × MongoStore) := do
  let _ ← ensureConnected c
  if !isValidObjectId id then return (false, s)
  return (s.links.any (fun link => link.id == id),
          { s with links := removeFirst (fun link => link.id == id) s.links })

/-! ## Generic list lemmas used by the adapter proofs -/

/-- After filtering out the elements whose key equals `x`, a search for key
`x` finds nothing. -/
theorem find?_filter_key {α : Type} (f : α → String) (x : String) :
    ∀ l : List α, (l.filter fun a => f a != x).find? (fun a => f a == x) = none
  | [] => rfl
  | a :: as => by
    cases hp : f a == x with
    | true =>
      have h1 : (a :: as).filter (fun a => f a != x) = as.filter (fun a => f a != x) := by
        simp [List.filter_cons, bne, hp]
      rw [h1]
      exact find?_filter_key f x as
    | false =>
      have h1 : (a :: as).filter (fun a => f a != x) = a :: as.filter (fun a => f a != x) := by
        simp [List.filter_cons, bne, hp]
      rw [h1, List.find?_cons_of_neg _ (by simp [hp])]
      exact find?_filter_key f x as

/-- Filtering out key `x` and then filtering for key `x` yields `[]`. -/
theorem filter_key_filter_key {α : Type} (f : α → String) (x : String) :
    ∀ l : List α, (l.filter fun a => f a != x).filter (fun a => f a == x) = []
  | [] => rfl
  | a :: as => by
    cases hp : f a == x with
    | true =>
      have h1 : (a :: as).filter (fun a => f a != x) = as.filter (fun a => f a != x) := by
        simp [List.filter_cons, bne, hp]
      rw [h1]
      exact filter_key_filter_key f x as
    | false =>
      have h1 : (a :: as).filter (fun a => f a != x) = a :: as.filter (fun a => f a != x) := by
        simp [List.filter_cons, bne, hp]
      rw [h1, List.filter_cons]
      simp only [hp, Bool.false_eq_true, if_false]
      exact filter_key_filter_key f x as

/-- Filtering out key `x` strictly shrinks the list exactly when some element
has key `x`. -/
theorem length_filter_key_lt_iff {α : Type} (f : α → String) (x : String) :
    ∀ l : List α,
      ((l.filter fun a => f a != x).length < l.length) ↔ l.any (fun a => f a == x)
  | [] => by simp
  | a :: as => by
    cases hp : f a == x with
    | true =>
      have h1 : (a :: as).filter (fun a => f a != x) = as.filter (fun a => f a != x) := by
        simp [List.filter_cons, bne, hp]
      rw [h1]
      simp only [List.any_cons, hp, Bool.true_or, iff_true, List.length_cons]
      exact Nat.lt_succ_of_le (List.length_filter_le _ as)
    | false =>
      have h1 : (a :: as).filter (fun a => f a != x) = a :: as.filter (fun a => f a != x) := by
        simp [List.filter_cons, bne, hp]
      rw [h1]
      simp only [List.length_cons, Nat.succ_lt_succ_iff, List.any_cons, hp, Bool.false_or]
      exact length_filter_key_lt_iff f x as

/-- If no element has key `x`, filtering out key `x` is the identity. -/
theorem filter_key_of_all_ne {α : Type} (f : α → String) (x : String) (l : List α)
    (h : ∀ a ∈ l, f a ≠ x) : (l.filter fun a => f a != x) = l := by
  apply List.filter_eq_self.mpr
  intro a ha
  simp [h a ha]

/-- If no element has key `x`, a search for key `x` finds nothing. -/
theorem find?_key_none_of_all_ne {α : Type} (f : α → String) (x : String) (l : List α)
    (h : ∀ a ∈ l, f a ≠ x) : l.find? (fun a => f a == x) = none :=
  List.find?_eq_none.mpr (fun a ha => by simp [h a ha])

/-- A search continues past a prefix on which it fails. -/
theorem find?_append_none {α : Type} (p : α → Bool) :
    ∀ (l₁ l₂ : List α), l₁.find? p = none → (l₁ ++ l₂).find? p = l₂.find? p
  | [], _, _ => rfl
  | a :: as, l₂, h => by
    cases hp : p a with
    | true =>
      rw [List.find?_cons_of_pos _ (by simp [hp])] at h
      exact absurd h (by simp)
    | false =>
      rw [List.find?_cons_of_neg _ (by simp [hp])] at h
      rw [List.cons_append, List.find?_cons_of_neg _ (by simp [hp])]
      exact find?_append_none p as l₂ h

/-- Replacing the first element of key `x` by an element of the same key
leaves the key sequence of the list unchanged. -/
theorem map_key_setFirstMatch {α : Type} (f : α → String) (u : α) (x : String)
    (hu : f u = x) :
    ∀ l : List α, (setFirstMatch (fun a => f a == x) u l).map f = l.map f
  | [] => rfl
  | a :: as => by
    cases hp : f a == x with
    | true =>
      have ha : f a = x := by simpa using hp
      simp [setFirstMatch, hp, hu, ha]
    | false =>
      simp [setFirstMatch, hp, map_key_setFirstMatch f u x hu as]

/-- Appending a single fresh element preserves `Nodup`. -/
theorem nodup_append_singleton {α : Type} (a : α) (l : List α)
    (h1 : l.Nodup) (h2 : a ∉ l) : (l ++ [a]).Nodup := by
  refine List.Nodup.append h1 (List.nodup_singleton a) ?_
  intro y hy hya
  exact h2 (List.mem_singleton.mp hya ▸ hy)

/-- Filtering preserves the `Nodup` of the mapped key sequence. -/
theorem nodup_map_filter {α : Type} (f : α → String) (p : α → Bool) (l : List α)
    (h : (l.map f).Nodup) : ((l.filter p).map f).Nodup :=
  List.Nodup.sublist (List.Sublist.map f (List.filter_sublist l)) h

/-- A search for key `x` over a list with no such key, extended by one
element of key `x`, finds exactly that element. -/
theorem find?_key_append_single {α : Type} (f : α → String) (x : String)
    (l : List α) (u : α) (hu : f u = x) (h : ∀ a ∈ l, f a ≠ x) :
    (l ++ [u]).find? (fun a => f a == x) = some u := by
  rw [find?_append_none _ _ _ (find?_key_none_of_all_ne f x l h)]
  simp [List.find?, hu]

/-! ## Claim theorems -/

/-- C1: for every local store state and every category id `x`,
`deleteCategory(x)` leaves `getLinksByCategoryId(x)` empty, makes
`getCategory(x)` absent, and the links returned by `listLinks` afterwards are
exactly the previous links whose `categoryId` differs from `x` (so every link
of another category is still returned). -/
theorem deleteCategory_cascade (s : LocalStore) (t : PgStore) (x : String) :
    getLinksByCategoryIdL (deleteCategoryL s x).2 x = [] ∧
    getCategoryL (deleteCategoryL s x).2 x = none ∧
    getLinksL (deleteCategoryL s x).2 =
      (getLinksL s).filter (fun link => link.categoryId != x) ∧
    getLinksByCategoryIdP (deleteCategoryP t x).2 x = [] ∧
    getCategoryP (deleteCategoryP t x).2 x = none ∧
    getLinksP (deleteCategoryP t x).2 =
      t.links.filter (fun link => link.categoryId != x) := by
  refine ⟨?_, ?_, ?_, ?_, ?_, ?_⟩
  · simp only [deleteCategoryL, getLinksByCategoryIdL]
    split
    · exact filter_key_filter_key LinkItem.categoryId x (getLinksL s)
    · exact filter_key_filter_key LinkItem.categoryId x (getLinksL s)
  · simp only [deleteCategoryL, getCategoryL]
    split
    · exact find?_filter_key Category.id x (getCategoriesL s)
    · next h =>
      have hany : ¬ (getCategoriesL s).any (fun cat => cat.id == x) = true :=
        fun ha => h ((length_filter_key_lt_iff Category.id x (getCategoriesL s)).mpr ha)
      have hall : ∀ cat ∈ getCategoriesL s, cat.id ≠ x := by simpa using hany
      exact find?_key_none_of_all_ne Category.id x _ hall
  · simp only [deleteCategoryL, getLinksL]
    split
    · rfl
    · rfl
  · exact filter_key_filter_key LinkItem.categoryId x t.links
  · exact find?_filter_key Category.id x t.categories
  · rfl

/-- C7: starting from the empty local store (both persisted slots absent),
seeding yields exactly the 4 fixed default categories, named General, Work,
Development and Learning, and fills the links slot with the 5 fixed default
links. -/
theorem seed_defaults :
    getCategoriesL (seedL emptyLocalStore) = initialCategories ∧
    initialCategories.length = 4 ∧
    (getCategoriesL (seedL emptyLocalStore)).map Category.name =
      ["General", "Work", "Development", "Learning"] ∧
    (seedL emptyLocalStore).linksSlot = some initialLinks ∧
    initialLinks.length = 5 :=
  ⟨rfl, rfl, rfl, rfl, rfl⟩

/-- C6: in a browser context, every configured backend kind other than local
is rejected with the PolicyViolation error, while the local kind or an unset
kind yields the local adapter. -/
theorem client_non_local_rejected (cfg : Option String) :
    (effectiveDataSourceType cfg ≠ "local" →
      getServiceInstanceClient cfg = .error .policyViolation) ∧
    (cfg = none ∨ cfg = some "local" →
      getServiceInstanceClient cfg = .ok .localAdapter) := by
  constructor
  · intro h
    have h2 : effectiveDataSourceType cfg ≠ "" := by
      unfold effectiveDataSourceType
      cases cfg with
      | none => simp
      | some s =>
        by_cases hs : s = "" <;> simp [hs]
    simp only [getServiceInstanceClient]
    rw [if_neg (by simp [h, h2])]
  · rintro (rfl | rfl) <;> rfl

/-- Witness for C6 at the concrete kinds `postgres` and unset. -/
theorem client_non_local_rejected_witness :
    getServiceInstanceClient (some "postgres") = .error .policyViolation ∧
    getServiceInstanceClient none = .ok .localAdapter :=
  ⟨(client_non_local_rejected (some "postgres")).1 (by decide),
   (client_non_local_rejected none).2 (Or.inl rfl)⟩

/-- C2, counterexample: the legacy selector `initializeDataService`, with the
backend kind set to `postgres` and no postgres configuration present,
silently returns the local adapter instead of failing with a
ConfigurationError. -/
theorem initializeDataService_silent_fallback :
    hasFullPostgresConfig emptyServerEnv = false ∧
    initializeDataService (some "postgres") emptyServerEnv = .localAdapter := by
  decide

/-- C2, amended: in the current selector `getServiceInstance`, a server-side
request for the `postgres` or `mongodb` kind with its required configuration
missing fails with a ConfigurationError before any adapter is constructed,
and these kinds never resolve to the local adapter. -/
theorem server_selector_fail_fast (e : ServerEnv) :
    (hasFullPostgresConfig e = false →
      getServiceInstanceServer (some "postgres") e = .error .configurationError) ∧
    (hasFullMongoConfig e = false →
      getServiceInstanceServer (some "mongodb") e = .error .configurationError) ∧
    getServiceInstanceServer (some "postgres") e ≠ .ok .localAdapter ∧
    getServiceInstanceServer (some "mongodb") e ≠ .ok .localAdapter := by
  refine ⟨?_, ?_, ?_, ?_⟩
  · intro h
    simp [getServiceInstanceServer, effectiveDataSourceType, h]
  · intro h
    simp [getServiceInstanceServer, effectiveDataSourceType, h]
  · cases hp : hasFullPostgresConfig e <;>
      simp [getServiceInstanceServer, effectiveDataSourceType, hp]
  · cases hm : hasFullMongoConfig e <;>
      simp [getServiceInstanceServer, effectiveDataSourceType, hm]

/-- Witness for C2 (amended) at the empty server environment. -/
theorem server_selector_fail_fast_witness :
    getServiceInstanceServer (some "postgres") emptyServerEnv =
      .error .configurationError ∧
    getServiceInstanceServer (some "mongodb") emptyServerEnv =
      .error .configurationError :=
  ⟨(server_selector_fail_fast emptyServerEnv).1 (by decide),
   (server_selector_fail_fast emptyServerEnv).2.1 (by decide)⟩

/-- C3: in the local adapter, if the id generated by `Date.now().toString()`
does not collide with an existing category id, `addCategory` followed by
`getCategory` at the returned record's id returns exactly the returned
record. -/
theorem addCategory_then_getCategory (s : LocalStore) (t : PgStore)
    (fs : FireStore) (d : CategoryData) (clock uuid docId : String)
    (h : ∀ cat ∈ getCategoriesL s, cat.id ≠ clock)
    (ht : ∀ cat ∈ t.categories, cat.id ≠ uuid)
    (hfb : ∀ cat ∈ fs.categories, cat.id ≠ docId) :
    (getCategoryL (addCategoryL s d clock).2 (addCategoryL s d clock).1.id =
      some (addCategoryL s d clock).1) ∧
    (getCategoryP (addCategoryP t d uuid).2 (addCategoryP t d uuid).1.id =
      some (addCategoryP t d uuid).1) ∧
    (getCategoryFB (addCategoryFB fs d docId).2 (addCategoryFB fs d docId).1.id =
      some (addCategoryFB fs d docId).1) := by
  refine ⟨?_, ?_, ?_⟩
  · exact find?_key_append_single Category.id clock _ _ rfl h
  · exact find?_key_append_single Category.id uuid _ _ rfl ht
  · exact find?_key_append_single Category.id docId _ _ rfl hfb

/-- Witness for C3: adding a category with fresh id "99" to the seeded store
and reading it back. -/
theorem addCategory_then_getCategory_witness :
    (getCategoryL (addCategoryL (seedL emptyLocalStore)
        { name := "X", description := none, icon := none } "99").2
      (addCategoryL (seedL emptyLocalStore)
        { name := "X", description := none, icon := none } "99").1.id =
    some (addCategoryL (seedL emptyLocalStore)
        { name := "X", description := none, icon := none } "99").1) ∧
    (getCategoryP (addCategoryP (PgStore.mk [] [])
        { name := "X", description := none, icon := none } "u1").2
      (addCategoryP (PgStore.mk [] [])
        { name := "X", description := none, icon := none } "u1").1.id =
    some (addCategoryP (PgStore.mk [] [])
        { name := "X", description := none, icon := none } "u1").1) ∧
    (getCategoryFB (addCategoryFB (FireStore.mk [] [])
        { name := "X", description := none, icon := none } "d1").2
      (addCategoryFB (FireStore.mk [] [])
        { name := "X", description := none, icon := none } "d1").1.id =
    some (addCategoryFB (FireStore.mk [] [])
        { name := "X", description := none, icon := none } "d1").1) :=
  addCategory_then_getCategory _ _ _ _ _ _ _ (by decide) (by decide) (by decide)

/-- C4, counterexample: the Firestore adapter's `deleteCategory` on a store
holding no category at all still returns `true`, not the `false` sentinel the
claim requires of every adapter. -/
theorem firebase_deleteCategory_no_sentinel :
    (deleteCategoryFB { categories := [], links := [] } "x").1 = true := by
  decide

/-- C4, amended: in the local adapter, for a category id not present in the
store, `updateCategory` returns the null sentinel (leaving the store
untouched) and `deleteCategory` returns `false`; the Firestore adapter does
not signal absence this way. -/
theorem local_absent_id_sentinels (s : LocalStore) (u : Category)
    (h : ∀ cat ∈ getCategoriesL s, cat.id ≠ u.id) :
    (updateCategoryL s u).1 = none ∧
    (updateCategoryL s u).2 = s ∧
    (deleteCategoryL s u.id).1 = false := by
  have hany : (getCategoriesL s).any (fun cat => cat.id == u.id) = false :=
    List.any_eq_false.mpr (fun cat hc => by simp [h cat hc])
  have hfix : ((getCategoriesL s).filter fun cat => cat.id != u.id) = getCategoriesL s :=
    filter_key_of_all_ne Category.id u.id _ h
  refine ⟨?_, ?_, ?_⟩
  · simp only [updateCategoryL]
    rw [if_neg (by simp [hany])]
  · simp only [updateCategoryL]
    rw [if_neg (by simp [hany])]
  · simp only [deleteCategoryL, hfix]
    rw [if_neg (Nat.lt_irrefl _)]

/-- Witness for C4 (amended) at the seeded store and an absent id. -/
theorem local_absent_id_sentinels_witness :
    (updateCategoryL (seedL emptyLocalStore)
        { id := "99", name := "X", description := none, icon := none }).1 = none ∧
    (updateCategoryL (seedL emptyLocalStore)
        { id := "99", name := "X", description := none, icon := none }).2 =
      seedL emptyLocalStore ∧
    (deleteCategoryL (seedL emptyLocalStore) "99").1 = false :=
  local_absent_id_sentinels _ _ (by decide)

/-- C5, counterexample: the MongoDB adapter's transactional `deleteCategory`,
on a connected client and a store containing no category at all, returns
`true` for a well-formed id even though no record was removed. -/
theorem mongo_deleteCategory_true_without_removal :
    (∀ cat ∈ (MongoStore.mk [] []).categories, cat.id ≠ "507f1f77bcf86cd799439011") ∧
    deleteCategoryM { connected := true, reachable := true } true
        { categories := [], links := [] } "507f1f77bcf86cd799439011" =
      .ok (true, { categories := [], links := [] }) :=
  ⟨by decide, by rfl⟩

/-- C5, amended: the local adapter's `deleteCategory` returns `true` exactly
when a category with the given id existed (and so was removed), and the
MongoDB adapter's non-transactional path does the same; the Firestore adapter
and the Mongo transactional path instead return `true` unconditionally on a
successful commit. -/
theorem deleteCategory_true_iff_existed :
    (∀ (s : LocalStore) (id : String),
      (deleteCategoryL s id).1 = true ↔
        (getCategoriesL s).any (fun cat => cat.id == id)) ∧
    (∀ (c : MongoConn) (s : MongoStore) (id : String),
      c.connected = true → isValidObjectId id = true →
      deleteCategoryM c false s id =
        .ok ((s.categories.any fun cat => cat.id == id),
             { categories := removeFirst (fun cat => cat.id == id) s.categories,
               links := s.links.filter (fun link => link.categoryId != id) })) := by
  constructor
  · intro s id
    simp only [deleteCategoryL]
    by_cases hlt :
        ((getCategoriesL s).filter fun cat => cat.id != id).length <
          (getCategoriesL s).length
    · rw [if_pos hlt]
      exact iff_of_true rfl ((length_filter_key_lt_iff Category.id id _).mp hlt)
    · rw [if_neg hlt]
      refine iff_of_false (by simp) ?_
      exact fun ha => hlt ((length_filter_key_lt_iff Category.id id _).mpr ha)
  · intro c s id hc hid
    simp [deleteCategoryM, ensureConnected, hc, hid]

/-- Witness for C5 (amended): the Mongo non-transactional delete on an empty
connected store with a well-formed id. -/
theorem deleteCategory_true_iff_existed_witness :
    deleteCategoryM { connected := true, reachable := true } false
        { categories := [], links := [] } "aaaaaaaaaaaaaaaaaaaaaaaa" =
      .ok (((MongoStore.mk [] []).categories.any
              fun cat => cat.id == "aaaaaaaaaaaaaaaaaaaaaaaa"),
           { categories := removeFirst
               (fun cat => cat.id == "aaaaaaaaaaaaaaaaaaaaaaaa")
               (MongoStore.mk [] []).categories,
             links := (MongoStore.mk [] []).links.filter
               (fun link => link.categoryId != "aaaaaaaaaaaaaaaaaaaaaaaa") }) :=
  deleteCategory_true_iff_existed.2 _ _ _ rfl (by decide)

/-- C9: in the local adapter, `deleteCategory` on an id with no matching
category still rewrites the persisted links slot, removing every orphan link
whose `categoryId` equals that id, while returning `false` and leaving the
categories slot untouched. -/
theorem deleteCategory_absent_still_rewrites_links (s : LocalStore) (x : String)
    (h : ∀ cat ∈ getCategoriesL s, cat.id ≠ x) :
    (deleteCategoryL s x).1 = false ∧
    (deleteCategoryL s x).2.categoriesSlot = s.categoriesSlot ∧
    (deleteCategoryL s x).2.linksSlot =
      some ((getLinksL s).filter (fun link => link.categoryId != x)) := by
  have hfix : ((getCategoriesL s).filter fun cat => cat.id != x) = getCategoriesL s :=
    filter_key_of_all_ne Category.id x _ h
  refine ⟨?_, ?_, ?_⟩ <;>
    (simp only [deleteCategoryL, hfix]; rw [if_neg (Nat.lt_irrefl _)])

/-- Witness for C9: the seeded store with the absent category id "99"; its
links slot is rewritten (unchanged in content here since no link is an
orphan), the categories slot stays, and the result is `false`. -/
theorem deleteCategory_absent_still_rewrites_links_witness :
    (deleteCategoryL (seedL emptyLocalStore) "99").1 = false ∧
    (deleteCategoryL (seedL emptyLocalStore) "99").2.categoriesSlot =
      (seedL emptyLocalStore).categoriesSlot ∧
    (deleteCategoryL (seedL emptyLocalStore) "99").2.linksSlot =
      some ((getLinksL (seedL emptyLocalStore)).filter
        (fun link => link.categoryId != "99")) :=
  deleteCategory_absent_still_rewrites_links _ _ (by decide)

/-- C10, counterexample: with a not-yet-connected client whose connection
attempt fails, the MongoDB adapter's `getCategory` on a syntactically invalid
ObjectId raises a connection error instead of returning the absent sentinel,
because every data method connects before validating the id. -/
theorem mongo_invalid_id_can_error :
    isValidObjectId "x" = false ∧
    getCategoryM { connected := false, reachable := false }
        { categories := [], links := [] } "x" = .error .connectionError :=
  ⟨by decide, by rfl⟩

/-- C10, amended: once the connection step succeeds (here: the client is
already connected), every id-keyed MongoDB operation given a syntactically
invalid ObjectId returns its absent sentinel without issuing any query and
leaves the store unchanged. -/
theorem mongo_invalid_id_sentinels (c : MongoConn) (s : MongoStore)
    (id : String) (u : Category) (ul : LinkItem) (hasSession : Bool)
    (hc : c.connected = true)
    (hid : isValidObjectId id = false)
    (hu : isValidObjectId u.id = false)
    (hul : isValidObjectId ul.id = false) :
    getCategoryM c s id = .ok none ∧
    getLinkM c s id = .ok none ∧
    updateCategoryM c s u = .ok (none, s) ∧
    updateLinkM c s ul = .ok (none, s) ∧
    deleteCategoryM c hasSession s id = .ok (false, s) ∧
    deleteLinkM c s id = .ok (false, s) := by
  refine ⟨?_, ?_, ?_, ?_, ?_, ?_⟩ <;>
    simp [getCategoryM, getLinkM, updateCategoryM, updateLinkM,
      deleteCategoryM, deleteLinkM, ensureConnected, hc, hid, hu, hul]

/-- Witness for C10 (amended) at a connected client, a seeded-like store and
the invalid id "x". -/
theorem mongo_invalid_id_sentinels_witness :
    getCategoryM { connected := true, reachable := true }
        { categories := [], links := [] } "x" = .ok none ∧
    getLinkM { connected := true, reachable := true }
        { categories := [], links := [] } "x" = .ok none ∧
    updateCategoryM { connected := true, reachable := true }
        { categories := [], links := [] }
        { id := "x", name := "N", description := none, icon := none } =
      .ok (none, { categories := [], links := [] }) ∧
    updateLinkM { connected := true, reachable := true }
        { categories := [], links := [] }
        { id := "x", title := "T", url := "u", description := none,
          categoryId := "1", icon := none } =
      .ok (none, { categories := [], links := [] }) ∧
    deleteCategoryM { connected := true, reachable := true } true
        { categories := [], links := [] } "x" =
      .ok (false, { categories := [], links := [] }) ∧
    deleteLinkM { connected := true, reachable := true }
        { categories := [], links := [] } "x" =
      .ok (false, { categories := [], links := [] }) :=
  mongo_invalid_id_sentinels _ _ _ _ _ _ rfl (by decide) (by decide) (by decide)

/-- C8, counterexample: starting from the seeded store, two `addCategory`
calls that observe the same `Date.now()` millisecond produce two categories
with the same id — the local adapter never checks the generated id for
freshness, so id uniqueness is not preserved by every operation sequence. -/
theorem local_duplicate_ids_reachable :
    ¬ UniqueIds (applyOp (applyOp (seedL emptyLocalStore)
        (LocalOp.addCat { name := "A", description := none, icon := none }
          "1700000000000"))
        (LocalOp.addCat { name := "B", description := none, icon := none }
          "1700000000000")) := by
  decide

/-- C8, amended: id uniqueness holds in the seeded initial store and is
preserved by every local-adapter operation provided each add's generated
`Date.now()` id does not collide with an existing id (a freshness condition
the code itself does not enforce). -/
theorem uniqueIds_preserved :
    UniqueIds (seedL emptyLocalStore) ∧
    ∀ (s : LocalStore) (op : LocalOp),
      UniqueIds s → opFresh s op = true → UniqueIds (applyOp s op) := by
  constructor
  · decide
  · rintro s op ⟨hc, hl⟩ hf
    cases op with
    | addCat d clock =>
      have hf2 : (getCategoriesL s).all (fun cat => cat.id != clock) = true := hf
      refine ⟨?_, hl⟩
      show ((getCategoriesL s ++ [mkCategory d clock]).map Category.id).Nodup
      have hmap : (getCategoriesL s ++ [mkCategory d clock]).map Category.id =
          (getCategoriesL s).map Category.id ++ [clock] := by
        simp [mkCategory]
      rw [hmap]
      refine nodup_append_singleton clock _ hc ?_
      intro hmem
      obtain ⟨cat, hcat, hcid⟩ := List.mem_map.mp hmem
      have hne : cat.id ≠ clock := by
        simpa using List.all_eq_true.mp hf2 cat hcat
      exact hne hcid
    | updateCat u =>
      show UniqueIds (updateCategoryL s u).2
      by_cases hmem : (getCategoriesL s).any (fun cat => cat.id == u.id)
      · have hres : (updateCategoryL s u).2 =
            { s with categoriesSlot := some (setFirstMatch (fun cat => cat.id == u.id) u (getCategoriesL s)) } := by
          simp only [updateCategoryL]
          rw [if_pos hmem]
        rw [hres]
        refine ⟨?_, hl⟩
        show ((setFirstMatch (fun cat => cat.id == u.id) u
            (getCategoriesL s)).map Category.id).Nodup
        rw [map_key_setFirstMatch Category.id u u.id rfl]
        exact hc
      · have hres : (updateCategoryL s u).2 = s := by
          simp only [updateCategoryL]
          rw [if_neg hmem]
        rw [hres]
        exact ⟨hc, hl⟩
    | deleteCat id =>
      show UniqueIds (deleteCategoryL s id).2
      by_cases hlt : ((getCategoriesL s).filter fun cat => cat.id != id).length <
          (getCategoriesL s).length
      · have hres : (deleteCategoryL s id).2 =
            { categoriesSlot := some ((getCategoriesL s).filter fun cat => cat.id != id),
              linksSlot := some ((getLinksL s).filter fun link => link.categoryId != id) } := by
          simp only [deleteCategoryL]
          rw [if_pos hlt]
        rw [hres]
        exact ⟨nodup_map_filter Category.id _ _ hc, nodup_map_filter LinkItem.id _ _ hl⟩
      · have hres : (deleteCategoryL s id).2 =
            { s with linksSlot := some ((getLinksL s).filter fun link => link.categoryId != id) } := by
          simp only [deleteCategoryL]
          rw [if_neg hlt]
        rw [hres]
        exact ⟨hc, nodup_map_filter LinkItem.id _ _ hl⟩
    | addLnk d clock =>
      have hf2 : (getLinksL s).all (fun link => link.id != clock) = true := hf
      refine ⟨hc, ?_⟩
      show ((getLinksL s ++ [mkLink d clock]).map LinkItem.id).Nodup
      have hmap : (getLinksL s ++ [mkLink d clock]).map LinkItem.id =
          (getLinksL s).map LinkItem.id ++ [clock] := by
        simp [mkLink]
      rw [hmap]
      refine nodup_append_singleton clock _ hl ?_
      intro hmem
      obtain ⟨link, hlink, hlid⟩ := List.mem_map.mp hmem
      have hne : link.id ≠ clock := by
        simpa using List.all_eq_true.mp hf2 link hlink
      exact hne hlid
    | updateLnk u =>
      show UniqueIds (updateLinkL s u).2
      by_cases hmem : (getLinksL s).any (fun link => link.id == u.id)
      · have hres : (updateLinkL s u).2 =
            { s with linksSlot := some (setFirstMatch (fun link => link.id == u.id) u (getLinksL s)) } := by
          simp only [updateLinkL]
          rw [if_pos hmem]
        rw [hres]
        refine ⟨hc, ?_⟩
        show ((setFirstMatch (fun link => link.id == u.id) u
            (getLinksL s)).map LinkItem.id).Nodup
        rw [map_key_setFirstMatch LinkItem.id u u.id rfl]
        exact hl
      · have hres : (updateLinkL s u).2 = s := by
          simp only [updateLinkL]
          rw [if_neg hmem]
        rw [hres]
        exact ⟨hc, hl⟩
    | deleteLnk id =>
      show UniqueIds (deleteLinkL s id).2
      by_cases hlt : ((getLinksL s).filter fun link => link.id != id).length <
          (getLinksL s).length
      · have hres : (deleteLinkL s id).2 =
            { s with linksSlot := some ((getLinksL s).filter fun link => link.id != id) } := by
          simp only [deleteLinkL]
          rw [if_pos hlt]
        rw [hres]
        exact ⟨hc, nodup_map_filter LinkItem.id _ _ hl⟩
      · have hres : (deleteLinkL s id).2 = s := by
          simp only [deleteLinkL]
          rw [if_neg hlt]
        rw [hres]
        exact ⟨hc, hl⟩

/-- Witness for C8 (amended): adding a category with the fresh id "99" to the
seeded store keeps ids unique. -/
theorem uniqueIds_preserved_witness :
    UniqueIds (applyOp (seedL emptyLocalStore)
      (LocalOp.addCat { name := "X", description := none, icon := none } "99")) :=
  uniqueIds_preserved.2 _ _ (by decide) (by decide)

end LinkHub
